import Mathlib

/-!
Shallow embedding of the `hallucination-detector` backend
(`backend/retrieval.py`, `backend/scoring.py`, `backend/counterevidence.py`,
`backend/app.py`) and proofs about the claims concerning it.

Conventions of the embedding:
* Python strings are Lean `String`s; the string primitives the source uses
  (`str.lower`, `str.strip`, `str.split`, `str.join`, substring test `in`,
  `re.findall` for the one fixed pattern used) are re-implemented below on
  `List Char` with Python semantics, restricted to the ASCII inputs the
  program manipulates.
* Python floats are modelled as `ℚ`; `round(x, 2)` is modelled as exact
  half-to-even rounding at two decimals (`pyRound2`).
* The SentenceTransformer embedding model is an opaque capability
  (spec section 2); wherever the source computes cosine similarities of
  encoded texts, the per-text similarity values enter the model as an
  explicit function or list parameter.
* Network interaction (the Wikipedia two-step fetch in
  `_fetch_wikipedia_snippets`) is abstracted as a function parameter giving
  the snippet list that the external interaction would produce (`[]` on any
  failure, exactly as the source's `except` handler produces).
-/

namespace HallucinationDetector

/-- A corpus or snippet document: the `{id, text}` records of the corpus
file and of the Wikipedia fallback (`retrieval.py`). -/
structure Doc where
  id : String
  text : String
deriving DecidableEq

/-! ## Python string primitives -/

/-- Python `str.lower()` (ASCII range, which is all the source feeds it). -/
def pyLower (s : String) : String := String.mk (s.data.map Char.toLower)

/-- Python `str.strip()`: drop leading and trailing whitespace. -/
def pyStrip (s : String) : String :=
  String.mk (((s.data.dropWhile Char.isWhitespace).reverse.dropWhile Char.isWhitespace).reverse)

/-- Splitting a character list at every character satisfying `p`, keeping
empty pieces — the semantics of Python `str.split(sep)` for a one-character
separator (with `p` testing that separator). -/
def splitOnPred (p : Char → Bool) : List Char → List (List Char)
  | [] => [[]]
  | c :: t =>
    let r := splitOnPred p t
    if p c then [] :: r
    else
      match r with
      | [] => [[c]]
      | h :: t2 => (c :: h) :: t2

/-- Python `s.split('.')`. -/
def pySplitDot (s : String) : List String :=
  (splitOnPred (fun c => c == '.') s.data).map String.mk

/-- Python `s.split()` (split on whitespace runs, dropping empty pieces). -/
def pyWords (s : String) : List String :=
  ((splitOnPred Char.isWhitespace s.data).filter (fun w => !w.isEmpty)).map String.mk

/-- Python `sep.join(parts)`. -/
def pyJoin (sep : String) : List String → String
  | [] => ""
  | [x] => x
  | x :: xs => x ++ sep ++ pyJoin sep xs

/-- Does `hay` start with `needle`? (helper for the substring test). -/
def startsWithChars : List Char → List Char → Bool
  | [], _ => true
  | _ :: _, [] => false
  | a :: as, b :: bs => a == b && startsWithChars as bs

/-- Python substring containment `needle in hay`. -/
def containsChars (needle : List Char) : List Char → Bool
  | [] => needle.isEmpty
  | b :: bs => startsWithChars needle (b :: bs) || containsChars needle bs

/-! ## Python `round(x, 2)` on the exact rationals of the model -/

/-- Round to the nearest integer, ties to even — the rounding mode of
Python's `round`. -/
def roundHalfEven (x : ℚ) : ℤ :=
  if x - (⌊x⌋ : ℚ) < 1/2 then ⌊x⌋
  else if 1/2 < x - (⌊x⌋ : ℚ) then ⌊x⌋ + 1
  else if ⌊x⌋ % 2 = 0 then ⌊x⌋ else ⌊x⌋ + 1

/-- Python `round(x, 2)`. -/
def pyRound2 (x : ℚ) : ℚ := (roundHalfEven (x * 100) : ℚ) / 100

theorem floor_le_roundHalfEven (x : ℚ) : ⌊x⌋ ≤ roundHalfEven x := by
  unfold roundHalfEven
  split
  · exact le_refl _
  · split
    · exact Int.le_add_one (le_refl _)
    · split
      · exact le_refl _
      · exact Int.le_add_one (le_refl _)

theorem roundHalfEven_le_floor_add_one (x : ℚ) : roundHalfEven x ≤ ⌊x⌋ + 1 := by
  unfold roundHalfEven
  split
  · exact Int.le_add_one (le_refl _)
  · split
    · exact le_refl _
    · split
      · exact Int.le_add_one (le_refl _)
      · exact le_refl _

theorem roundHalfEven_of_lt {x : ℚ} (h : x - (⌊x⌋ : ℚ) < 1/2) :
    roundHalfEven x = ⌊x⌋ := by
  unfold roundHalfEven
  rw [if_pos h]

theorem roundHalfEven_of_gt {x : ℚ} (h : 1/2 < x - (⌊x⌋ : ℚ)) :
    roundHalfEven x = ⌊x⌋ + 1 := by
  unfold roundHalfEven
  rw [if_neg (not_lt.mpr (le_of_lt h)), if_pos h]

theorem roundHalfEven_mono {x y : ℚ} (h : x ≤ y) :
    roundHalfEven x ≤ roundHalfEven y := by
  rcases lt_or_eq_of_le (Int.floor_le_floor h) with hf | hf
  · calc roundHalfEven x ≤ ⌊x⌋ + 1 := roundHalfEven_le_floor_add_one x
      _ ≤ ⌊y⌋ := by omega
      _ ≤ roundHalfEven y := floor_le_roundHalfEven y
  · have hr : x - (⌊x⌋ : ℚ) ≤ y - (⌊y⌋ : ℚ) := by
      rw [hf]; exact sub_le_sub_right h _
    by_cases h1 : x - (⌊x⌋ : ℚ) < 1/2
    · rw [roundHalfEven_of_lt h1, hf]
      exact floor_le_roundHalfEven y
    · by_cases h2 : 1/2 < y - (⌊y⌋ : ℚ)
      · rw [roundHalfEven_of_gt h2, ← hf]
        exact roundHalfEven_le_floor_add_one x
      · have hxy : x = y := by
          have e1 : x - (⌊x⌋ : ℚ) = 1/2 :=
            le_antisymm (le_trans hr (not_lt.mp h2)) (not_lt.mp h1)
          have e2 : y - (⌊y⌋ : ℚ) = 1/2 :=
            le_antisymm (not_lt.mp h2) (e1 ▸ hr)
          have hcf : (⌊x⌋ : ℚ) = (⌊y⌋ : ℚ) := by exact_mod_cast hf
          linarith
        rw [hxy]

theorem roundHalfEven_nonneg {x : ℚ} (h : 0 ≤ x) : 0 ≤ roundHalfEven x := by
  have : (0 : ℤ) ≤ ⌊x⌋ := Int.floor_nonneg.mpr h
  exact le_trans this (floor_le_roundHalfEven x)

theorem pyRound2_mono {x y : ℚ} (h : x ≤ y) : pyRound2 x ≤ pyRound2 y := by
  unfold pyRound2
  have := roundHalfEven_mono (mul_le_mul_of_nonneg_right h (by norm_num : (0:ℚ) ≤ 100))
  have hc : (roundHalfEven (x * 100) : ℚ) ≤ (roundHalfEven (y * 100) : ℚ) := by exact_mod_cast this
  exact div_le_div_of_nonneg_right hc (by norm_num) |>.trans_eq rfl

theorem pyRound2_nonneg {x : ℚ} (h : 0 ≤ x) : 0 ≤ pyRound2 x := by
  unfold pyRound2
  have : (0 : ℚ) ≤ (roundHalfEven (x * 100) : ℚ) := by
    exact_mod_cast roundHalfEven_nonneg (mul_nonneg h (by norm_num))
  positivity

/-! ## `scoring.py`: keyword extraction and the scorer -/

/-- The stopword list `_STOPWORDS` of `scoring.py`. -/
def _STOPWORDS : List String :=
  ["a", "an", "the", "of", "in", "on", "at", "is", "are", "was", "were", "be",
   "been", "being", "to", "for", "and", "or", "if", "then", "else", "with",
   "by", "as", "from", "that", "this", "these", "those", "it", "its", "into",
   "over", "under", "not", "no", "but", "so", "do", "does", "did", "done",
   "have", "has", "had", "you", "your", "we", "our", "they", "their", "them",
   "he", "she", "his", "her", "who", "whom", "which", "what", "when", "where",
   "why", "how"]

/-- A character matched by the regex class `[A-Za-z0-9\-]`. -/
def isWordChar (c : Char) : Bool := c.isAlpha || c.isDigit || c == '-'

/-- Fuel-indexed scan for `findallWordTokens` (structural recursion on the
fuel so the definition unfolds by ordinary reduction; every step consumes
at least one character, so fuel equal to the input length never runs
out). -/
def findallAux : ℕ → List Char → List (List Char)
  | 0, _ => []
  | _ + 1, [] => []
  | fuel + 1, c :: rest =>
    if c.isAlpha then
      if (rest.takeWhile isWordChar).isEmpty then findallAux fuel rest
      else (c :: rest.takeWhile isWordChar) :: findallAux fuel (rest.dropWhile isWordChar)
    else findallAux fuel rest

/-- `re.findall(r"[A-Za-z][A-Za-z0-9\-]+", ·)`: a left-to-right scan taking,
at each position starting with a letter, the greedy run of at least one
further word character; on failure the scan advances one character. -/
def findallWordTokens (l : List Char) : List (List Char) :=
  findallAux l.length l

/-- `_keywords` of `scoring.py`: regex tokens of the lowercased text,
stopwords and tokens of length ≤ 2 removed. -/
def _keywords (text : String) : List String :=
  ((findallWordTokens (pyLower text).data).map String.mk).filter
    (fun t => !(_STOPWORDS.contains t) && decide (2 < t.length))

/-- `ans_keys = list(set(_keywords(answer)))`.  Python's set iteration order
is unspecified; `dedup` is one canonical representative of it, and every
statement proved below depends only on the underlying set. -/
def ansKeysOf (answer : String) : List String := (_keywords answer).dedup

/-- `ev_concat = " ".join(evidence_texts).lower()`. -/
def evConcatOf (texts : List String) : String := pyLower (pyJoin " " texts)

/-- `matched = [k for k in ans_keys if k in ev_concat]`. -/
def matchedKeywords (answer : String) (texts : List String) : List String :=
  (ansKeysOf answer).filter (fun k => containsChars k.data (evConcatOf texts).data)

/-- `missing = [k for k in ans_keys if k not in ev_concat]`. -/
def missingKeywords (answer : String) (texts : List String) : List String :=
  (ansKeysOf answer).filter (fun k => !(containsChars k.data (evConcatOf texts).data))

/-- `coverage = round((len(matched) / max(1, len(ans_keys))) * 100.0, 2)`. -/
def coverageOf (answer : String) (texts : List String) : ℚ :=
  pyRound2 (((matchedKeywords answer texts).length : ℚ) /
    ((max 1 (ansKeysOf answer).length : ℕ) : ℚ) * 100)

/-- `np.mean` of a list of similarities. -/
def npMean (l : List ℚ) : ℚ := l.sum / (l.length : ℚ)

/-- `np.clip(x, lo, hi)`. -/
def npClip (x lo hi : ℚ) : ℚ := min (max x lo) hi

/-- Renders the two-decimal rationals produced by `pyRound2` the way a
Python f-string renders the corresponding float (`0.0`, `12.5`, `33.33`). -/
def fmtRound2 (q : ℚ) : String :=
  (if (q * 100).floor < 0 then "-" else "") ++
    toString ((q * 100).floor.natAbs / 100) ++ "." ++
    (if (q * 100).floor.natAbs % 100 == 0 then "0"
     else if (q * 100).floor.natAbs % 10 == 0 then toString ((q * 100).floor.natAbs % 100 / 10)
     else (if (q * 100).floor.natAbs % 100 < 10 then "0" else "") ++
       toString ((q * 100).floor.natAbs % 100))

/-- `HallucinationScorer._generate_rationale`. -/
def _generate_rationale (sim_score coverage : ℚ) (missing_terms : List String) : String :=
  if sim_score < 40/100 then
    "Low semantic match and low coverage (" ++ fmtRound2 coverage ++
      "%). Missing key terms: " ++
      (if missing_terms.isEmpty then "—" else pyJoin ", " (missing_terms.take 5)) ++ "."
  else if sim_score < 70/100 then
    "Partial support: moderate similarity with coverage " ++ fmtRound2 coverage ++
      "%. Some terms are weakly supported."
  else
    "Answer aligns well with retrieved evidence; coverage " ++ fmtRound2 coverage ++ "%."

/-- The scorer's own fixed-threshold verdict banding
(`scoring.py`, the `avg_conf` buckets). -/
def scorerVerdict (avg_conf : ℚ) : String :=
  if avg_conf ≥ 70/100 then "Verified"
  else if avg_conf ≥ 40/100 then "Hallucination Suspected"
  else "Unverifiable"

/-- The dictionary `HallucinationScorer.evaluate` returns. -/
structure VerificationResult where
  verdict : String
  confidence : ℚ
  rationale : String
  evidence : List String
  coverage : ℚ
  missing_keywords : List String
  matched_keywords : List String
deriving DecidableEq

/-- `HallucinationScorer.evaluate`.  The SentenceTransformer encoding and
`_safe_cosine` are the opaque embedding capability: `sim answer t` stands
for the cosine similarity `_safe_cosine` computes between the encoded
answer and the encoded evidence text `t`. -/
def evaluate (sim : String → String → ℚ) (answer : String)
    (evidence_docs : List Doc) : VerificationResult :=
  if (evidence_docs.map Doc.text) = [] then
    { verdict := "Unverifiable"
      confidence := 0
      rationale := "No supporting evidence retrieved."
      evidence := []
      coverage := 0
      missing_keywords := []
      matched_keywords := [] }
  else
    { verdict := scorerVerdict (npClip (npMean ((evidence_docs.map Doc.text).map (sim answer))) (-1) 1)
      confidence := pyRound2 (npClip (npMean ((evidence_docs.map Doc.text).map (sim answer))) (-1) 1 * 100)
      rationale := _generate_rationale
        (npClip (npMean ((evidence_docs.map Doc.text).map (sim answer))) (-1) 1)
        (coverageOf answer (evidence_docs.map Doc.text))
        (missingKeywords answer (evidence_docs.map Doc.text))
      evidence := evidence_docs.map Doc.text
      coverage := coverageOf answer (evidence_docs.map Doc.text)
      missing_keywords := (missingKeywords answer (evidence_docs.map Doc.text)).take 10
      matched_keywords := (matchedKeywords answer (evidence_docs.map Doc.text)).take 20 }

/-! ## `app.py`: the boundary layer's verdict thresholding (`verify_qa`) -/

/-- The final verdict recomputation in `verify_qa`: `conf = conf_pct / 100`
compared against the caller-supplied thresholds. -/
def verify_qa_verdict (conf_pct threshold_green threshold_yellow : ℚ) : String :=
  if conf_pct / 100 ≥ threshold_green then "Verified"
  else if conf_pct / 100 ≥ threshold_yellow then "Hallucination Suspected"
  else "Unverifiable"

/-! ## `counterevidence.py` -/

/-- `np.max` over the per-passage similarity values.  The empty case never
arises in the source (`generate_counter_evidence` returns `NoEvidence`
before computing scores when no passages were retrieved). -/
def npMax : List ℚ → ℚ
  | [] => 0
  | a :: t => t.foldl max a

/-- The per-claim status decision of `generate_counter_evidence`, applied to
the per-passage cosine similarities of the evidence to the claim
(`supSims`) and to the negated probe (`contraSims`); the scores are the
`np.max` of each list. -/
def claimStatus (supSims contraSims : List ℚ) (contradiction_margin : ℚ) : String :=
  if npMax contraSims > npMax supSims + contradiction_margin then "LikelyContradicted"
  else if npMax supSims < 35/100 then "Unverifiable"
  else "SupportedOrNeutral"

/-- The fragments `[p.strip() for p in answer.split('.') if p.strip()]`. -/
def sentenceFragments (answer : String) : List String :=
  ((pySplitDot answer).map pyStrip).filter (fun p => p != "")

/-- The fragments surviving `4 < len(p.split()) < 30`. -/
def qualifyingFragments (answer : String) : List String :=
  (sentenceFragments answer).filter
    (fun p => decide (4 < (pyWords p).length) && decide ((pyWords p).length < 30))

/-- `_simple_atomic_claims`: `parts[:max_claims] or [answer]`. -/
def _simple_atomic_claims (answer : String) (max_claims : ℕ) : List String :=
  match (qualifyingFragments answer).take max_claims with
  | [] => [answer]
  | p :: rest => p :: rest

/-! ## `retrieval.py` -/

/-- Python list indexing `corpus[i]` for a possibly negative integer index
(negative indices address from the end; anything outside
`[-len, len)` raises, modelled as `none`). -/
def pyGet (l : List Doc) (i : ℤ) : Option Doc :=
  if 0 ≤ i then l.get? i.toNat
  else if (-i).toNat ≤ l.length then l.get? (l.length - (-i).toNat)
  else none

/-- The label row returned by faiss `IndexFlatIP.search` for one query:
the positions of the found neighbors in descending similarity order,
padded with `-1` labels when fewer than `top_k` vectors are indexed. -/
def faissLabels (valid : List ℕ) (top_k : ℕ) : List ℤ :=
  valid.map (fun n => (n : ℤ)) ++ List.replicate (top_k - valid.length) (-1)

/-- `results = [self.corpus[i] for i in indices[0] if i < len(self.corpus)]`
(`RetrievalEngine.retrieve`). -/
def retrieveResults (corpus : List Doc) (labels : List ℤ) : List Doc :=
  (labels.filter (fun i => i < (corpus.length : ℤ))).filterMap (pyGet corpus)

/-- The fallback decision at the end of `RetrievalEngine.retrieve`: when the
in-corpus results are missing or all-whitespace and fallback is enabled,
the Wikipedia snippets (`wiki_snips`, the value `_fetch_wikipedia_snippets`
returned) replace them — but only if that snippet list is non-empty. -/
def retrieveFallbackStep (results : List Doc) (wiki_fallback : Bool)
    (wiki_snips : List Doc) : List Doc :=
  if (results.isEmpty || results.all (fun r => (pyStrip r.text).length == 0)) && wiki_fallback then
    if wiki_snips.isEmpty then results else wiki_snips
  else results

/-- `RetrievalEngine.retrieve` after the faiss search: the result-list
construction followed by the fallback decision. -/
def retrieve (corpus : List Doc) (labels : List ℤ) (wiki_fallback : Bool)
    (wiki_snips : List Doc) : List Doc :=
  retrieveFallbackStep (retrieveResults corpus labels) wiki_fallback wiki_snips

/-- `key = query.lower().strip()` in `_fetch_wikipedia_snippets`. -/
def normalizeQuery (q : String) : String := pyStrip (pyLower q)

/-- `RetrievalEngine._fetch_wikipedia_snippets`.  The wiki cache dict is an
association list (later writes shadow earlier ones); `fetchResult` is the
snippet list the two-step Wikipedia interaction would produce for the query
(`[]` on any failure, as the source's `except` handler yields).  Returns
the snippets, the updated cache, and whether an external call was issued. -/
def _fetch_wikipedia_snippets (cache : List (String × List Doc))
    (fetchResult : String → List Doc) (query : String) :
    List Doc × List (String × List Doc) × Bool :=
  match cache.lookup (normalizeQuery query) with
  | some v => (v, cache, false)
  | none => (fetchResult query, (normalizeQuery query, fetchResult query) :: cache, true)

/-! ## Helper lemmas -/

theorem startsWithChars_append {needle hay : List Char} (ext : List Char)
    (h : startsWithChars needle hay = true) :
    startsWithChars needle (hay ++ ext) = true := by
  induction needle generalizing hay with
  | nil => simp [startsWithChars]
  | cons a as ih =>
    cases hay with
    | nil => simp [startsWithChars] at h
    | cons b bs =>
      simp only [List.cons_append, startsWithChars, Bool.and_eq_true] at h ⊢
      exact ⟨h.1, ih h.2⟩

theorem containsChars_nil_left (hay : List Char) : containsChars [] hay = true := by
  cases hay <;> simp [containsChars, startsWithChars]

theorem containsChars_append {needle hay : List Char} (ext : List Char)
    (h : containsChars needle hay = true) :
    containsChars needle (hay ++ ext) = true := by
  induction hay with
  | nil =>
    have hne : needle = [] := by
      cases needle with
      | nil => rfl
      | cons c cs => simp [containsChars] at h
    subst hne
    exact containsChars_nil_left ext
  | cons b bs ih =>
    rw [List.cons_append]
    simp only [containsChars, Bool.or_eq_true] at h ⊢
    rcases h with h | h
    · left
      rw [← List.cons_append]
      exact startsWithChars_append ext h
    · right
      exact ih h

theorem length_filter_mono {α : Type} (l : List α) (p q : α → Bool)
    (h : ∀ a, p a = true → q a = true) :
    (l.filter p).length ≤ (l.filter q).length := by
  induction l with
  | nil => simp
  | cons a t ih =>
    by_cases hp : p a = true
    · rw [List.filter_cons_of_pos hp, List.filter_cons_of_pos (h a hp)]
      simpa using ih
    · rw [List.filter_cons_of_neg (by simpa using hp)]
      by_cases hq : q a = true
      · rw [List.filter_cons_of_pos hq]
        exact le_trans ih (Nat.le_succ _)
      · rw [List.filter_cons_of_neg (by simpa using hq)]
        exact ih

theorem pyJoin_append_singleton (sep : String) (l : List String) (t : String)
    (h : l ≠ []) : pyJoin sep (l ++ [t]) = pyJoin sep l ++ sep ++ t := by
  induction l with
  | nil => cases h rfl
  | cons x xs ih =>
    cases xs with
    | nil => simp [pyJoin]
    | cons y ys =>
      have step : pyJoin sep ((x :: y :: ys) ++ [t])
          = x ++ sep ++ pyJoin sep ((y :: ys) ++ [t]) := rfl
      have unf : pyJoin sep (x :: y :: ys) = x ++ sep ++ pyJoin sep (y :: ys) := rfl
      rw [step, ih (by simp), unf]
      simp [String.append_assoc]

theorem evConcatOf_append_singleton (texts : List String) (t : String)
    (h : texts ≠ []) :
    (evConcatOf (texts ++ [t])).data
      = (evConcatOf texts).data ++ (' ' :: (pyLower t).data) := by
  unfold evConcatOf pyLower
  rw [pyJoin_append_singleton " " texts t h]
  show ((pyJoin " " texts ++ " " ++ t).data.map Char.toLower)
      = (pyJoin " " texts).data.map Char.toLower ++ (' ' :: t.data.map Char.toLower)
  rw [String.data_append, String.data_append]
  rw [List.map_append, List.map_append]
  have hsp : ((" " : String).data.map Char.toLower) = [' '] := by decide
  rw [hsp]
  simp

theorem le_foldl_max (a : ℚ) (t : List ℚ) : a ≤ t.foldl max a := by
  induction t generalizing a with
  | nil => simp
  | cons b bs ih =>
    rw [List.foldl_cons]
    exact le_trans (le_max_left a b) (ih _)

theorem mem_le_foldl_max (a : ℚ) (t : List ℚ) : ∀ x ∈ t, x ≤ t.foldl max a := by
  induction t generalizing a with
  | nil => simp
  | cons b bs ih =>
    intro x hx
    rw [List.foldl_cons]
    rcases List.mem_cons.mp hx with rfl | hx
    · exact le_trans (le_max_right a x) (le_foldl_max _ _)
    · exact ih _ x hx

theorem foldl_max_mem (a : ℚ) (t : List ℚ) :
    t.foldl max a = a ∨ t.foldl max a ∈ t := by
  induction t generalizing a with
  | nil => left; rfl
  | cons b bs ih =>
    rw [List.foldl_cons]
    rcases ih (max a b) with h | h
    · rcases max_choice a b with hm | hm
      · left; rw [h, hm]
      · right; rw [h, hm]; exact List.mem_cons_self b bs
    · right; exact List.mem_cons_of_mem b h

theorem npMax_mem {l : List ℚ} (h : l ≠ []) : npMax l ∈ l := by
  cases l with
  | nil => cases h rfl
  | cons a t =>
    show t.foldl max a ∈ a :: t
    rcases foldl_max_mem a t with h1 | h1
    · rw [h1]; exact List.mem_cons_self a t
    · exact List.mem_cons_of_mem a h1

theorem le_npMax {l : List ℚ} (x : ℚ) (hx : x ∈ l) : x ≤ npMax l := by
  cases l with
  | nil => simp at hx
  | cons a t =>
    show x ≤ t.foldl max a
    rcases List.mem_cons.mp hx with rfl | h
    · exact le_foldl_max _ _
    · exact mem_le_foldl_max _ _ x h

theorem toFinset_dedup_eq (l : List String) : l.dedup.toFinset = l.toFinset := by
  ext a
  simp [List.mem_toFinset, List.mem_dedup]

theorem evaluate_coverage (sim : String → String → ℚ) (answer : String)
    (docs : List Doc) (h : docs ≠ []) :
    (evaluate sim answer docs).coverage = coverageOf answer (docs.map Doc.text) := by
  have htexts : docs.map Doc.text ≠ [] := by simpa using h
  unfold evaluate
  rw [if_neg htexts]

theorem coverageOf_nonneg (answer : String) (texts : List String) :
    0 ≤ coverageOf answer texts := by
  unfold coverageOf
  apply pyRound2_nonneg
  apply mul_nonneg _ (by norm_num)
  apply div_nonneg (Nat.cast_nonneg _) (Nat.cast_nonneg _)

theorem coverageOf_mono_append (answer : String) (texts : List String)
    (t : String) (h : texts ≠ []) :
    coverageOf answer texts ≤ coverageOf answer (texts ++ [t]) := by
  unfold coverageOf
  apply pyRound2_mono
  apply mul_le_mul_of_nonneg_right _ (by norm_num : (0:ℚ) ≤ 100)
  have hpos : (0:ℚ) < ((max 1 (ansKeysOf answer).length : ℕ) : ℚ) := by
    have : 1 ≤ max 1 (ansKeysOf answer).length := le_max_left _ _
    exact_mod_cast Nat.lt_of_lt_of_le Nat.zero_lt_one this
  rw [div_le_div_iff_of_pos_right hpos]
  have hlen : (matchedKeywords answer texts).length
      ≤ (matchedKeywords answer (texts ++ [t])).length := by
    unfold matchedKeywords
    apply length_filter_mono
    intro k hk
    rw [evConcatOf_append_singleton texts t h]
    exact containsChars_append _ hk
  exact_mod_cast hlen

/-! ## Claim theorems -/

/-- C1: the claim says `retrieve` with `top_k` greater than the corpus size
returns at most corpus-size documents.  The code violates this: for a
one-document corpus and `top_k = 3`, faiss pads the label row with `-1`,
the guard `i < len(self.corpus)` lets `-1` through, and Python negative
indexing turns each `-1` into the last corpus document, so `retrieve`
returns 3 documents from a corpus of size 1.  The guard is plainly meant to
clip invalid labels (and the spec states the clipping twice), so this is a
slip in the code. -/
theorem C1_retrieve_exceeds_corpus_size :
    retrieve [⟨"d0", "text0"⟩] (faissLabels [0] 3) true []
      = [⟨"d0", "text0"⟩, ⟨"d0", "text0"⟩, ⟨"d0", "text0"⟩]
    ∧ (retrieve [⟨"d0", "text0"⟩] (faissLabels [0] 3) true []).length = 3
    ∧ ¬ (retrieve [⟨"d0", "text0"⟩] (faissLabels [0] 3) true []).length
        ≤ ([⟨"d0", "text0"⟩] : List Doc).length := by
  refine ⟨by decide, by decide, by decide⟩

/-- C2 counterexample: the claim says coverage is 100 when the answer has
no informative tokens and the evidence is non-empty; the code computes
`round((0 / max(1, 0)) * 100, 2) = 0` there.  At answer `"it is"` (all
tokens are stopwords or too short) and one non-empty evidence document the
returned coverage is 0, not 100. -/
theorem C2_counterexample :
    _keywords "it is" = []
    ∧ ([(⟨"e1", "x"⟩ : Doc)] : List Doc) ≠ []
    ∧ (evaluate (fun _ _ => 0) "it is" [⟨"e1", "x"⟩]).coverage = 0
    ∧ (evaluate (fun _ _ => 0) "it is" [⟨"e1", "x"⟩]).coverage ≠ 100 := by
  have hkeys : _keywords "it is" = [] := by decide
  have hmatched : matchedKeywords "it is" ["x"] = [] := by decide
  have hanskeys : ansKeysOf "it is" = [] := by decide
  have hcov : (evaluate (fun _ _ => 0) "it is" [⟨"e1", "x"⟩]).coverage = 0 := by
    rw [evaluate_coverage _ _ _ (by decide)]
    show coverageOf "it is" ["x"] = 0
    unfold coverageOf
    rw [hmatched, hanskeys]
    norm_num [pyRound2, roundHalfEven]
  exact ⟨hkeys, by decide, hcov, by rw [hcov]; norm_num⟩

/-- C2 amended: for every non-empty evidence set and every answer with no
informative tokens, `evaluate` returns coverage 0 (the `max(1, ·)`
denominator guard makes the ratio `0/1`), not 100. -/
theorem C2_no_informative_tokens_coverage_zero
    (sim : String → String → ℚ) (answer : String) (docs : List Doc)
    (hdocs : docs ≠ []) (hkeys : _keywords answer = []) :
    (evaluate sim answer docs).coverage = 0 := by
  rw [evaluate_coverage _ _ _ hdocs]
  unfold coverageOf matchedKeywords ansKeysOf
  rw [hkeys]
  norm_num [List.dedup_nil, List.filter_nil, pyRound2, roundHalfEven]

/-- C2 witness: the amended statement at answer `"it is"` and one
evidence document. -/
theorem C2_witness :
    ([(⟨"e1", "x"⟩ : Doc)] : List Doc) ≠ []
    ∧ _keywords "it is" = []
    ∧ (evaluate (fun _ _ => 0) "it is" [⟨"e1", "x"⟩]).coverage = 0 :=
  ⟨by decide, by decide,
    C2_no_informative_tokens_coverage_zero (fun _ _ => 0) "it is" [⟨"e1", "x"⟩]
      (by decide) (by decide)⟩

/-- C3 counterexample: the claim says that on a degenerate in-corpus result
with fallback enabled, `retrieve` returns exactly the external snippet
list, never reverting to the in-corpus results.  When the external source
yields no snippets (`wiki_snips = []`) but the degenerate in-corpus list is
a non-empty all-whitespace document, the code's `if wiki_snips:` guard
reverts to the in-corpus list, which differs from the external list. -/
theorem C3_counterexample :
    (pyStrip (Doc.text ⟨"d0", "   "⟩)).length = 0
    ∧ retrieveFallbackStep [⟨"d0", "   "⟩] true [] = [⟨"d0", "   "⟩]
    ∧ retrieveFallbackStep [⟨"d0", "   "⟩] true [] ≠ ([] : List Doc) := by
  refine ⟨by decide, by decide, by decide⟩

/-- C3 amended: with fallback enabled and a degenerate in-corpus result
(empty, or every document all-whitespace), `retrieve` returns exactly the
external snippet list whenever that list is non-empty (a full substitute,
never a merge); when the external source yields no snippets, the
degenerate in-corpus result is returned unchanged. -/
theorem C3_fallback_substitution (results snips : List Doc)
    (hdeg : results = [] ∨ ∀ r ∈ results, (pyStrip r.text).length = 0) :
    (snips ≠ [] → retrieveFallbackStep results true snips = snips)
    ∧ retrieveFallbackStep results true [] = results := by
  have hcond : (results.isEmpty
      || results.all (fun r => (pyStrip r.text).length == 0)) = true := by
    rcases hdeg with rfl | h
    · simp
    · rw [Bool.or_eq_true]
      right
      rw [List.all_eq_true]
      intro r hr
      simpa using h r hr
  constructor
  · intro hs
    unfold retrieveFallbackStep
    rw [hcond]
    simp [hs]
  · unfold retrieveFallbackStep
    rw [hcond]
    simp

/-- C3 witness: the amended statement at an empty in-corpus result, a
non-empty external snippet list, and an empty external snippet list. -/
theorem C3_witness :
    retrieveFallbackStep [] true [⟨"wiki:A", "A. extract"⟩]
      = [(⟨"wiki:A", "A. extract"⟩ : Doc)]
    ∧ retrieveFallbackStep [] true ([] : List Doc) = [] :=
  ⟨(C3_fallback_substitution [] [⟨"wiki:A", "A. extract"⟩] (Or.inl rfl)).1 (by decide),
    (C3_fallback_substitution [] [⟨"wiki:A", "A. extract"⟩] (Or.inl rfl)).2⟩

/-- C4: two successive `_fetch_wikipedia_snippets` calls whose queries have
the same normalized (lowercased, stripped) key return the same snippet
list and the second call issues no external call — a hit in the first
call's written cache entry, which is stored even when the external fetch
produced the empty list (negative cache). -/
theorem C4_cache_idempotent (cache : List (String × List Doc))
    (fetchResult : String → List Doc) (q1 q2 : String)
    (h : normalizeQuery q1 = normalizeQuery q2) :
    (_fetch_wikipedia_snippets
        (_fetch_wikipedia_snippets cache fetchResult q1).2.1 fetchResult q2).1
      = (_fetch_wikipedia_snippets cache fetchResult q1).1
    ∧ (_fetch_wikipedia_snippets
        (_fetch_wikipedia_snippets cache fetchResult q1).2.1 fetchResult q2).2.2
      = false := by
  unfold _fetch_wikipedia_snippets
  rw [← h]
  cases hl : cache.lookup (normalizeQuery q1) with
  | some v => simp [hl]
  | none => simp [hl, List.lookup]

/-- C4 witness: an external fetch that fails (returns the empty list) is
cached, and the repeat lookup with a differently-spelled but identically
normalized query is a cache hit issuing no external call. -/
theorem C4_witness :
    (_fetch_wikipedia_snippets
        (_fetch_wikipedia_snippets [] (fun _ => []) "Foo ").2.1 (fun _ => []) " foo").1
      = (_fetch_wikipedia_snippets [] (fun _ => []) "Foo ").1
    ∧ (_fetch_wikipedia_snippets
        (_fetch_wikipedia_snippets [] (fun _ => []) "Foo ").2.1 (fun _ => []) " foo").2.2
      = false :=
  C4_cache_idempotent [] (fun _ => []) "Foo " " foo" (by decide)

/-- C5: `evaluate` on an empty evidence set returns exactly the fixed
degenerate result — verdict `"Unverifiable"`, confidence 0, coverage 0,
empty matched and missing keyword lists, empty evidence — for every
answer and every similarity capability. -/
theorem C5_empty_evidence_degenerate (sim : String → String → ℚ)
    (answer : String) :
    evaluate sim answer [] =
      { verdict := "Unverifiable"
        confidence := 0
        rationale := "No supporting evidence retrieved."
        evidence := []
        coverage := 0
        missing_keywords := []
        matched_keywords := [] } := rfl

/-- C6: the boundary layer's final verdict (`verify_qa`) is `"Verified"`
exactly when the confidence percentage is at least the green threshold
scaled by 100, else `"Hallucination Suspected"` exactly when it is at
least the yellow threshold scaled by 100, else `"Unverifiable"`; and the
scorer's own advisory verdict is the identical 3-band ordering applied to
the same mean-similarity confidence with the fixed thresholds 0.40 and
0.70. -/
theorem C6_verdict_thresholding (conf_pct threshold_green threshold_yellow : ℚ) :
    (verify_qa_verdict conf_pct threshold_green threshold_yellow = "Verified"
      ↔ 100 * threshold_green ≤ conf_pct)
    ∧ (verify_qa_verdict conf_pct threshold_green threshold_yellow
        = "Hallucination Suspected"
      ↔ (¬ 100 * threshold_green ≤ conf_pct ∧ 100 * threshold_yellow ≤ conf_pct))
    ∧ (verify_qa_verdict conf_pct threshold_green threshold_yellow = "Unverifiable"
      ↔ (¬ 100 * threshold_green ≤ conf_pct ∧ ¬ 100 * threshold_yellow ≤ conf_pct))
    ∧ ∀ avg_conf : ℚ,
        scorerVerdict avg_conf = verify_qa_verdict (100 * avg_conf) (70/100) (40/100) := by
  have key : ∀ t : ℚ, (conf_pct / 100 ≥ t) ↔ 100 * t ≤ conf_pct := by
    intro t
    rw [ge_iff_le, le_div_iff₀ (by norm_num : (0:ℚ) < 100)]
    constructor <;> intro hh <;> linarith
  have h4 : ∀ a : ℚ,
      scorerVerdict a = verify_qa_verdict (100 * a) (70/100) (40/100) := by
    intro a
    have e : 100 * a / 100 = a := by field_simp
    unfold scorerVerdict verify_qa_verdict
    rw [e]
  refine ⟨?_, ?_, ?_, h4⟩
  · unfold verify_qa_verdict
    by_cases h1 : conf_pct / 100 ≥ threshold_green
    · rw [if_pos h1]
      simp only [key] at h1
      exact iff_of_true rfl h1
    · rw [if_neg h1]
      simp only [key] at h1
      split_ifs with h2
      · exact iff_of_false (by decide) h1
      · exact iff_of_false (by decide) h1
  · unfold verify_qa_verdict
    by_cases h1 : conf_pct / 100 ≥ threshold_green
    · rw [if_pos h1]
      simp only [key] at h1
      exact iff_of_false (by decide) (fun hcon => hcon.1 h1)
    · rw [if_neg h1]
      by_cases h2 : conf_pct / 100 ≥ threshold_yellow
      · rw [if_pos h2]
        simp only [key] at h1 h2
        exact iff_of_true rfl ⟨h1, h2⟩
      · rw [if_neg h2]
        simp only [key] at h2
        exact iff_of_false (by decide) (fun hcon => h2 hcon.2)
  · unfold verify_qa_verdict
    by_cases h1 : conf_pct / 100 ≥ threshold_green
    · rw [if_pos h1]
      simp only [key] at h1
      exact iff_of_false (by decide) (fun hcon => hcon.1 h1)
    · rw [if_neg h1]
      by_cases h2 : conf_pct / 100 ≥ threshold_yellow
      · rw [if_pos h2]
        simp only [key] at h2
        exact iff_of_false (by decide) (fun hcon => hcon.2 h2)
      · rw [if_neg h2]
        simp only [key] at h1 h2
        exact iff_of_true rfl ⟨h1, h2⟩

/-- C7 counterexample: the decision order of the claim is right, but the
third status string the code returns is `"SupportedOrNeutral"`, not the
claim's `"Supported/Neutral"`: at support similarity 1/2 and contradiction
similarity 0 with the default margin neither the contradiction test nor
the low-support test fires, and the returned status differs from the
claim's literal string. -/
theorem C7_counterexample :
    claimStatus [1/2] [0] (15/100) = "SupportedOrNeutral"
    ∧ ¬ (npMax [0] > npMax [(1:ℚ)/2] + 15/100)
    ∧ ¬ (npMax [(1:ℚ)/2] < 35/100)
    ∧ claimStatus [1/2] [0] (15/100) ≠ "Supported/Neutral" := by
  have h1 : ¬ ((0:ℚ) > 1/2 + 15/100) := by norm_num
  have h2 : ¬ ((1:ℚ)/2 < 35/100) := by norm_num
  have hst : claimStatus [1/2] [0] (15/100) = "SupportedOrNeutral" := by
    unfold claimStatus npMax
    rw [if_neg (by simpa using h1), if_neg (by simpa using h2)]
  exact ⟨hst, by simpa using h1, by simpa using h2, by rw [hst]; decide⟩

/-- C7 amended: for every decomposed claim with a non-empty set of
retrieved passages (non-empty per-passage similarity lists for the claim
and for the negated probe), the status is `"LikelyContradicted"` iff the
contradiction score exceeds the support score plus the margin, else
`"Unverifiable"` iff the support score is below 0.35, else
`"SupportedOrNeutral"` — where each score is the maximum of the
per-passage similarities (`npMax` attains a member of the list and bounds
every member). -/
theorem C7_status_decision (supSims contraSims : List ℚ) (margin : ℚ)
    (hs : supSims ≠ []) (hc : contraSims ≠ []) :
    (claimStatus supSims contraSims margin = "LikelyContradicted"
      ↔ npMax contraSims > npMax supSims + margin)
    ∧ (claimStatus supSims contraSims margin = "Unverifiable"
      ↔ (¬ npMax contraSims > npMax supSims + margin ∧ npMax supSims < 35/100))
    ∧ (claimStatus supSims contraSims margin = "SupportedOrNeutral"
      ↔ (¬ npMax contraSims > npMax supSims + margin ∧ ¬ npMax supSims < 35/100))
    ∧ npMax supSims ∈ supSims ∧ (∀ x ∈ supSims, x ≤ npMax supSims)
    ∧ npMax contraSims ∈ contraSims ∧ (∀ x ∈ contraSims, x ≤ npMax contraSims) := by
  refine ⟨?_, ?_, ?_, npMax_mem hs, fun x hx => le_npMax x hx,
    npMax_mem hc, fun x hx => le_npMax x hx⟩
  · unfold claimStatus
    by_cases h1 : npMax contraSims > npMax supSims + margin
    · rw [if_pos h1]
      exact iff_of_true rfl h1
    · rw [if_neg h1]
      split_ifs with h2
      · exact iff_of_false (by decide) h1
      · exact iff_of_false (by decide) h1
  · unfold claimStatus
    by_cases h1 : npMax contraSims > npMax supSims + margin
    · rw [if_pos h1]
      exact iff_of_false (by decide) (fun hcon => hcon.1 h1)
    · rw [if_neg h1]
      by_cases h2 : npMax supSims < 35/100
      · rw [if_pos h2]
        exact iff_of_true rfl ⟨h1, h2⟩
      · rw [if_neg h2]
        exact iff_of_false (by decide) (fun hcon => h2 hcon.2)
  · unfold claimStatus
    by_cases h1 : npMax contraSims > npMax supSims + margin
    · rw [if_pos h1]
      exact iff_of_false (by decide) (fun hcon => hcon.1 h1)
    · rw [if_neg h1]
      by_cases h2 : npMax supSims < 35/100
      · rw [if_pos h2]
        exact iff_of_false (by decide) (fun hcon => hcon.2 h2)
      · rw [if_neg h2]
        exact iff_of_true rfl ⟨h1, h2⟩

/-- C7 witness: the amended statement at one passage with support
similarity 1/2 and contradiction similarity 0, margin 0.15. -/
theorem C7_witness :
    (claimStatus [1/2] [0] (15/100) = "LikelyContradicted"
      ↔ npMax [0] > npMax [(1:ℚ)/2] + 15/100)
    ∧ (claimStatus [1/2] [0] (15/100) = "Unverifiable"
      ↔ (¬ npMax [0] > npMax [(1:ℚ)/2] + 15/100 ∧ npMax [(1:ℚ)/2] < 35/100))
    ∧ (claimStatus [1/2] [0] (15/100) = "SupportedOrNeutral"
      ↔ (¬ npMax [0] > npMax [(1:ℚ)/2] + 15/100 ∧ ¬ npMax [(1:ℚ)/2] < 35/100))
    ∧ npMax [(1:ℚ)/2] ∈ [(1:ℚ)/2] ∧ (∀ x ∈ [(1:ℚ)/2], x ≤ npMax [(1:ℚ)/2])
    ∧ npMax [(0:ℚ)] ∈ [(0:ℚ)] ∧ (∀ x ∈ [(0:ℚ)], x ≤ npMax [(0:ℚ)]) :=
  C7_status_decision [1/2] [0] (15/100) (by simp) (by simp)

/-- C8: `_simple_atomic_claims` returns the first `max_claims` fragments
whose word count is strictly between 4 and 30 among the period-split,
stripped, non-empty fragments, and the whole answer as a single claim when
no fragment qualifies; in every case (for at least one requested claim)
the result is non-empty, even for an answer without periods. -/
theorem C8_simple_atomic_claims (answer : String) (max_claims : ℕ)
    (h : 1 ≤ max_claims) :
    _simple_atomic_claims answer max_claims =
      (if qualifyingFragments answer = [] then [answer]
       else (qualifyingFragments answer).take max_claims)
    ∧ _simple_atomic_claims answer max_claims ≠ [] := by
  cases hq : qualifyingFragments answer with
  | nil =>
    unfold _simple_atomic_claims
    rw [hq]
    simp
  | cons p rest =>
    obtain ⟨k, rfl⟩ : ∃ k, max_claims = k + 1 := ⟨max_claims - 1, by omega⟩
    unfold _simple_atomic_claims
    rw [hq]
    simp [List.take_succ_cons]

/-- C8 witness: the statement at a five-word answer with no period and
the default `max_claims = 3`. -/
theorem C8_witness :
    _simple_atomic_claims "just some words right here" 3 =
      (if qualifyingFragments "just some words right here" = []
       then ["just some words right here"]
       else (qualifyingFragments "just some words right here").take 3)
    ∧ _simple_atomic_claims "just some words right here" 3 ≠ [] :=
  C8_simple_atomic_claims "just some words right here" 3 (by decide)

/-- C9: coverage monotonicity — appending an additional passage to the
evidence set never decreases the coverage percentage `evaluate` returns
(the answer's keyword set is unchanged, every keyword matched in the old
concatenated evidence text is still a substring of the extended one, and
Python rounding is monotone). -/
theorem C9_coverage_monotone (sim : String → String → ℚ) (answer : String)
    (docs : List Doc) (d : Doc) :
    (evaluate sim answer docs).coverage
      ≤ (evaluate sim answer (docs ++ [d])).coverage := by
  cases docs with
  | nil =>
    have h1 : (evaluate sim answer []).coverage = 0 := rfl
    have h2 : (evaluate sim answer ([] ++ [d])).coverage
        = coverageOf answer [d.text] := by
      rw [List.nil_append]
      exact evaluate_coverage _ _ _ (by simp)
    rw [h1, h2]
    exact coverageOf_nonneg _ _
  | cons a rest =>
    rw [evaluate_coverage _ _ _ (by simp), evaluate_coverage _ _ _ (by simp)]
    rw [List.map_append]
    exact coverageOf_mono_append _ _ _ (by simp)

/-- C10: coverage and the matched/missing keyword lists are computed over
the set of distinct informative tokens of the answer: any two answers with
the same token set (in particular an answer and a copy with an informative
word duplicated) get the same coverage and the same matched and missing
keyword sets, and every distinct token lies in exactly one of the two
(uncapped) lists. -/
theorem C10_distinct_tokens (sim : String → String → ℚ) (docs : List Doc)
    (a1 a2 : String)
    (h : (_keywords a1).toFinset = (_keywords a2).toFinset) :
    (evaluate sim a1 docs).coverage = (evaluate sim a2 docs).coverage
    ∧ (matchedKeywords a1 (docs.map Doc.text)).toFinset
        = (matchedKeywords a2 (docs.map Doc.text)).toFinset
    ∧ (missingKeywords a1 (docs.map Doc.text)).toFinset
        = (missingKeywords a2 (docs.map Doc.text)).toFinset
    ∧ ∀ k ∈ ansKeysOf a1,
        (k ∈ matchedKeywords a1 (docs.map Doc.text)
          ↔ ¬ k ∈ missingKeywords a1 (docs.map Doc.text)) := by
  have hkeysfin : (ansKeysOf a1).toFinset = (ansKeysOf a2).toFinset := by
    unfold ansKeysOf
    rw [toFinset_dedup_eq, toFinset_dedup_eq, h]
  have hkeyslen : (ansKeysOf a1).length = (ansKeysOf a2).length := by
    unfold ansKeysOf
    rw [← List.card_toFinset, ← List.card_toFinset, h]
  have hmatchedfin : ∀ texts : List String,
      (matchedKeywords a1 texts).toFinset = (matchedKeywords a2 texts).toFinset := by
    intro texts
    unfold matchedKeywords
    rw [List.toFinset_filter, List.toFinset_filter, hkeysfin]
  have hmissingfin : ∀ texts : List String,
      (missingKeywords a1 texts).toFinset = (missingKeywords a2 texts).toFinset := by
    intro texts
    unfold missingKeywords
    rw [List.toFinset_filter, List.toFinset_filter, hkeysfin]
  have hmatchedlen : ∀ texts : List String,
      (matchedKeywords a1 texts).length = (matchedKeywords a2 texts).length := by
    intro texts
    have n1 : (matchedKeywords a1 texts).Nodup :=
      List.Nodup.filter _ (List.nodup_dedup _)
    have n2 : (matchedKeywords a2 texts).Nodup :=
      List.Nodup.filter _ (List.nodup_dedup _)
    rw [← List.toFinset_card_of_nodup n1, ← List.toFinset_card_of_nodup n2,
      hmatchedfin texts]
  have hcovOf : ∀ texts : List String,
      coverageOf a1 texts = coverageOf a2 texts := by
    intro texts
    unfold coverageOf
    rw [hmatchedlen texts, hkeyslen]
  have hcov : (evaluate sim a1 docs).coverage = (evaluate sim a2 docs).coverage := by
    cases docs with
    | nil =>
      have e1 : (evaluate sim a1 []).coverage = 0 := rfl
      have e2 : (evaluate sim a2 []).coverage = 0 := rfl
      rw [e1, e2]
    | cons x xs =>
      rw [evaluate_coverage _ _ _ (by simp), evaluate_coverage _ _ _ (by simp)]
      exact hcovOf _
  refine ⟨hcov, hmatchedfin _, hmissingfin _, ?_⟩
  intro k hk
  unfold matchedKeywords missingKeywords
  simp only [List.mem_filter, hk, true_and]
  cases hcc : containsChars k.data (evConcatOf (docs.map Doc.text)).data <;> simp [hcc]

/-- C10 witness: duplicating the informative word `alpha` inside the
answer changes neither the coverage nor the matched/missing keyword sets,
and each token is in exactly one uncapped list. -/
theorem C10_witness :
    (evaluate (fun _ _ => 0) "alpha beta gamma" [⟨"e1", "alpha delta"⟩]).coverage
      = (evaluate (fun _ _ => 0) "alpha beta gamma alpha" [⟨"e1", "alpha delta"⟩]).coverage
    ∧ (matchedKeywords "alpha beta gamma"
          (([⟨"e1", "alpha delta"⟩] : List Doc).map Doc.text)).toFinset
        = (matchedKeywords "alpha beta gamma alpha"
          (([⟨"e1", "alpha delta"⟩] : List Doc).map Doc.text)).toFinset
    ∧ (missingKeywords "alpha beta gamma"
          (([⟨"e1", "alpha delta"⟩] : List Doc).map Doc.text)).toFinset
        = (missingKeywords "alpha beta gamma alpha"
          (([⟨"e1", "alpha delta"⟩] : List Doc).map Doc.text)).toFinset
    ∧ ∀ k ∈ ansKeysOf "alpha beta gamma",
        (k ∈ matchedKeywords "alpha beta gamma"
            (([⟨"e1", "alpha delta"⟩] : List Doc).map Doc.text)
          ↔ ¬ k ∈ missingKeywords "alpha beta gamma"
            (([⟨"e1", "alpha delta"⟩] : List Doc).map Doc.text)) :=
  C10_distinct_tokens (fun _ _ => 0) [⟨"e1", "alpha delta"⟩]
    "alpha beta gamma" "alpha beta gamma alpha" (by decide)

end HallucinationDetector
